import Mathlib

/-!
# deepin-tool-kit: `dwidget/widgets/dapplication.cpp`

A shallow embedding of `DApplicationPrivate` / `DApplication`:

* the translation loader (`loadTranslator`, `loadDtkTranslator`, the public
  `DApplication::loadTranslator`);
* the single-instance guard (`setSingleInstance`);
* the startup-notification cursor handlers connected in the constructor;
* the platform plugin override (`loadDXcbPlugin`).

Calls into Qt are modelled by the documented behaviour of the Qt function
(`QString::arg`, `QGuiApplication::setOverrideCursor`, `QList::removeAll`) or,
where the outcome is decided by the outside world (the file system, the local
socket layer, `qputenv`), by an explicit outcome argument.  Side effects are
recorded in the state that is passed through.
-/

namespace Dtk

/-! ## `QString::arg` -/

/-- `QChar::digitValue` on the ASCII digits `0` to `9`; `none` is its `-1`. -/
def digitValue (c : Char) : Option Nat :=
  if c.isDigit then some (c.toNat - 48) else none

/-- The scan that `QString::arg` runs right after a `%`: an optional `L`, one
digit, and a second digit when there is one.  The result is the number of the
place marker and how many characters after the `%` belong to it. -/
def escapeAt (cs : List Char) : Option (Nat × Nat) :=
  let body : Nat × List Char :=
    match cs with
    | 'L' :: r => (1, r)
    | r => (0, r)
  match body.2 with
  | [] => none
  | c :: r =>
    match digitValue c with
    | none => none
    | some e =>
      match r with
      | [] => some (e, body.1 + 1)
      | c2 :: _ =>
        match digitValue c2 with
        | some e2 => some (10 * e + e2, body.1 + 2)
        | none => some (e, body.1 + 1)

/-- A piece of a format string: one ordinary character, or a place marker with
its number and its text. -/
inductive Piece where
  | lit (c : Char)
  | marker (n : Nat) (text : List Char)
  deriving DecidableEq, Repr

/-- Cuts a format string into pieces, scanning for `%` as `QString::arg` does;
the first argument counts the characters that still belong to the place marker
found last. -/
def pieces : Nat → List Char → List Piece
  | _, [] => []
  | k + 1, _ :: cs => pieces k cs
  | 0, c :: cs =>
    if c = '%' then
      match escapeAt cs with
      | some (e, len) => Piece.marker e (c :: cs.take len) :: pieces len cs
      | none => Piece.lit c :: pieces 0 cs
    else Piece.lit c :: pieces 0 cs

/-- The lowest place-marker number among the pieces (`min_escape`). -/
def minEscape : List Piece → Option Nat
  | [] => none
  | Piece.lit _ :: ps => minEscape ps
  | Piece.marker n _ :: ps =>
    match minEscape ps with
    | none => some n
    | some m => some (min n m)

/-- Text of a piece after the markers numbered `m` were replaced by `a`. -/
def Piece.subst (m : Nat) (a : List Char) : Piece → List Char
  | Piece.lit c => [c]
  | Piece.marker n text => if n = m then a else text

/-- `QString::arg(const QString &a)` with field width 0: every occurrence of
the lowest-numbered place marker (`%1`, `%2`, ..., `%99`, also written `%L1`) of
the string is replaced by `a`, and a string without a place marker is returned
as it is.  The place markers are looked up in the string the call is made on, so
in a chain `s.arg(a).arg(b)` the second call also sees the markers that `a`
brought in. -/
def QString.arg (s a : String) : String :=
  match minEscape (pieces 0 s.data) with
  | none => s
  | some m => String.mk ((pieces 0 s.data).flatMap (Piece.subst m a.data))

/-! ## Data model -/

/-- A `QLocale`, as far as this file uses it: its `name()`. -/
structure QLocale where
  name : String
  deriving DecidableEq, Repr

/-- Modelled from the spec: `DPathBuf` (declared in `dutil/dpathbuf.h`, which is
not among the sources).  The spec writes the search directories as
`<standardDataDir>/<componentName>/translations`, so a path buffer is a path
string and joining puts a `/` between the two parts. -/
structure DPathBuf where
  path : String
  deriving DecidableEq, Repr

/-- Modelled from the spec: `DPathBuf::join` and `DPathBuf::operator/`, see
`DPathBuf`. -/
def DPathBuf.join (p : DPathBuf) (s : String) : DPathBuf :=
  ⟨p.path ++ "/" ++ s⟩

/-- Modelled from the spec: `DPathBuf::toString`, see `DPathBuf`. -/
def DPathBuf.toString (p : DPathBuf) : String :=
  p.path

/-- A `QTranslator` after `load(filename, directory)`: what it was asked to load
and whether `load` succeeded. -/
structure QTranslator where
  filename : String
  directory : String
  loaded : Bool
  deriving DecidableEq, Repr

/-- A line written through `qDebug()` or `qWarning()`. -/
inductive LogLine where
  | debug (parts : List String)
  | warning (parts : List String)
  deriving DecidableEq, Repr

/-- A `QLocalServer` object: whether it is listening and, after a successful
`listen`, under which name. -/
structure QLocalServer where
  listening : Bool
  serverName : String
  deriving DecidableEq, Repr

/-- The calls `setSingleInstance` makes into the local socket layer. -/
inductive SocketCall where
  | connectToServer (key : String)
  | waitForConnected (msecs : Nat)
  | deleteLater
  | newLocalServer
  | removeServer (key : String)
  | connectNewConnection
  | listen (key : String)
  deriving DecidableEq, Repr

/-- The values of `Qt::CursorShape` the file uses, and the others. -/
inductive CursorShape where
  | ArrowCursor
  | WaitCursor
  | other (shape : Nat)
  deriving DecidableEq, Repr

/-- The application object `q` together with its private part `d`: what the
functions of this file read and write. -/
structure DApplication where
  /-- Translators passed to `installTranslator`, oldest first. -/
  translators : List QTranslator
  /-- Lines written through `qDebug()` and `qWarning()`, oldest first. -/
  log : List LogLine
  /-- `DApplicationPrivate::m_localServer`; `none` is the null pointer. -/
  m_localServer : Option QLocalServer
  /-- Calls made into the local socket layer, oldest first. -/
  socketCalls : List SocketCall
  /-- `DApplicationPrivate::m_monitoredStartupApps`. -/
  m_monitoredStartupApps : List String
  /-- The stack of override cursors of `QGuiApplication`, top first. -/
  overrideCursors : List CursorShape
  deriving DecidableEq, Repr

/-- The object right after construction. -/
def DApplication.new : DApplication :=
  ⟨[], [], none, [], [], []⟩

/-- `q->installTranslator(t)`. -/
def DApplication.installTranslator (q : DApplication) (t : QTranslator) : DApplication :=
  { q with translators := q.translators ++ [t] }

/-- One more line in the log. -/
def DApplication.write (q : DApplication) (l : LogLine) : DApplication :=
  { q with log := q.log ++ [l] }

/-- One more call into the local socket layer. -/
def DApplication.call (q : DApplication) (c : SocketCall) : DApplication :=
  { q with socketCalls := q.socketCalls ++ [c] }

/-- `QGuiApplication::setOverrideCursor`: the cursor is pushed onto the stack of
override cursors and becomes the active one. -/
def DApplication.setOverrideCursor (q : DApplication) (c : CursorShape) : DApplication :=
  { q with overrideCursors := c :: q.overrideCursors }

/-- `QGuiApplication::overrideCursor`: the active override cursor, if any. -/
def DApplication.overrideCursor (q : DApplication) : Option CursorShape :=
  q.overrideCursors.head?

/-! ## Translation loader -/

/-- What the translation loader reads from the outside world. -/
structure Env where
  /-- `QFile::exists`. -/
  fileExists : String → Bool
  /-- Outcome of `QTranslator::load(filename, directory)`. -/
  load : String → String → Bool
  /-- `QStandardPaths::standardLocations(QStandardPaths::GenericDataLocation)`. -/
  standardLocations : List String
  /-- `QCoreApplication::applicationDirPath()`. -/
  applicationDirPath : String
  /-- `QDir::currentPath()`. -/
  currentPath : String
  /-- `QLocale::system()`. -/
  systemLocale : QLocale
  /-- `QLibraryInfo::location(QLibraryInfo::TranslationsPath)`. -/
  translationsPath : String
  /-- `QCoreApplication::applicationName()`. -/
  applicationName : String

/-- `QString("%1_%2").arg(name).arg(locale.name())`. -/
def translateFilename (name : String) (locale : QLocale) : String :=
  QString.arg (QString.arg "%1_%2" name) locale.name

/-- `(path / translateFilename).toString()`, the path handed to
`QTranslator::load`. -/
def translatePath (path : DPathBuf) (name : String) (locale : QLocale) : String :=
  (path.join (translateFilename name locale)).toString

/-- The inner loop of `DApplicationPrivate::loadTranslator`, over the
directories; `some` is the state at `return true`. -/
def DApplicationPrivate.loadTranslator.dirLoop (env : Env) (name : String) (locale : QLocale)
    (q : DApplication) : List DPathBuf → Option DApplication
  | [] => none
  | path :: rest =>
    if env.fileExists (translatePath path name locale ++ ".qm") then
      some ((q.write (LogLine.debug ["load translate", translatePath path name locale])).installTranslator
        ⟨translatePath path name locale, "", env.load (translatePath path name locale) ""⟩)
    else DApplicationPrivate.loadTranslator.dirLoop env name locale q rest

/-- The outer loop of `DApplicationPrivate::loadTranslator`, over the locales. -/
def DApplicationPrivate.loadTranslator.localeLoop (env : Env) (translateDirs : List DPathBuf)
    (name : String) (q : DApplication) : List QLocale → Option DApplication
  | [] => none
  | locale :: rest =>
    match DApplicationPrivate.loadTranslator.dirLoop env name locale q translateDirs with
    | some q1 => some q1
    | none => DApplicationPrivate.loadTranslator.localeLoop env translateDirs name q rest

/-- `DApplicationPrivate::loadTranslator`. -/
def DApplicationPrivate.loadTranslator (env : Env) (translateDirs : List DPathBuf) (name : String)
    (localeFallback : List QLocale) (q : DApplication) : Bool × DApplication :=
  match DApplicationPrivate.loadTranslator.localeLoop env translateDirs name q localeFallback with
  | some q1 => (true, q1)
  | none => (false, q.write (LogLine.warning [name, "can not find qm files"]))

/-- The translator `loadDtkTranslator` creates first: the result of
`load("qt_" + QLocale::system().name(), TranslationsPath)`. -/
def qtTranslator (env : Env) : QTranslator :=
  ⟨"qt_" ++ env.systemLocale.name, env.translationsPath,
    env.load ("qt_" ++ env.systemLocale.name) env.translationsPath⟩

/-- `DApplicationPrivate::loadDtkTranslator`. -/
def DApplicationPrivate.loadDtkTranslator (env : Env) (localeFallback : List QLocale)
    (q : DApplication) : Bool × DApplication :=
  let q1 := q.installTranslator (qtTranslator env)
  let dtkwidgetName := "dtkwidget"
  let dataDirs := env.standardLocations
  let translateDirs : List DPathBuf :=
    dataDirs.map (fun path => ((DPathBuf.mk path).join dtkwidgetName).join "translations")
  let runDir := DPathBuf.mk env.applicationDirPath
  let translateDirs := translateDirs ++ [runDir.join "translations"]
  let currentDir := DPathBuf.mk env.currentPath
  let translateDirs := translateDirs ++ [currentDir.join "translations"]
  DApplicationPrivate.loadTranslator env translateDirs dtkwidgetName localeFallback q1

/-- `DApplication::loadTranslator`; the result of `loadDtkTranslator` is
dropped. -/
def DApplication.loadTranslator (env : Env) (localeFallback : List QLocale)
    (q : DApplication) : Bool × DApplication :=
  let q1 := (DApplicationPrivate.loadDtkTranslator env localeFallback q).2
  let appName := env.applicationName
  let dataDirs := env.standardLocations
  let translateDirs : List DPathBuf :=
    dataDirs.map (fun path => ((DPathBuf.mk path).join appName).join "translations")
  let runDir := DPathBuf.mk env.applicationDirPath
  let translateDirs := translateDirs ++ [runDir.join "translations"]
  let currentDir := DPathBuf.mk env.currentPath
  let translateDirs := translateDirs ++ [currentDir.join "translations"]
  DApplicationPrivate.loadTranslator env translateDirs appName localeFallback q1

/-! ## Single-instance guard -/

/-- What the local socket layer answers during one call of `setSingleInstance`:
whether `waitForConnected(1000)` reports a connection, and whether `listen`
succeeds. -/
structure Outcome where
  connected : Bool
  listenOk : Bool
  deriving DecidableEq, Repr

/-- `QLocalServer::listen(key)` on a fresh server. -/
def QLocalServer.listen (ok : Bool) (key : String) : QLocalServer :=
  if ok then ⟨true, key⟩ else ⟨false, ""⟩

/-- `DApplicationPrivate::setSingleInstance`. -/
def DApplicationPrivate.setSingleInstance (o : Outcome) (key : String) (d : DApplication) :
    Bool × DApplication :=
  match d.m_localServer with
  | some server => (server.listening, d)
  | none =>
    let d1 := ((d.call (SocketCall.connectToServer key)).call
      (SocketCall.waitForConnected 1000)).call SocketCall.deleteLater
    let result := o.connected
    if result then (false, d1)
    else
      let d2 := ((d1.call SocketCall.newLocalServer).call (SocketCall.removeServer key)).call
        SocketCall.connectNewConnection
      let d3 := d2.call (SocketCall.listen key)
      let server := QLocalServer.listen o.listenOk key
      (server.listening, { d3 with m_localServer := some server })

/-- `DApplication::setSingleInstance`. -/
def DApplication.setSingleInstance (o : Outcome) (key : String) (d : DApplication) :
    Bool × DApplication :=
  DApplicationPrivate.setSingleInstance o key d

/-- A sequence of `setSingleInstance` calls on one object, each with its key and
with what the socket layer answers; the results come out in call order. -/
def setSingleInstanceSeq : List (String × Outcome) → DApplication → List Bool × DApplication
  | [], d => ([], d)
  | (key, o) :: rest, d =>
    let r := DApplicationPrivate.setSingleInstance o key d
    let rs := setSingleInstanceSeq rest r.2
    (r.1 :: rs.1, rs.2)

/-! ## Startup-notification cursor feedback -/

/-- The two signals of `StartupNotificationMonitor` the constructor connects
to. -/
inductive StartupSignal where
  | appStartup (id : String)
  | appStartupCompleted (id : String)
  deriving DecidableEq, Repr

/-- The identifier a signal carries. -/
def StartupSignal.id : StartupSignal → String
  | appStartup id => id
  | appStartupCompleted id => id

/-- The lambda the constructor connects to `appStartup` (under `Q_OS_UNIX`). -/
def DApplicationPrivate.onAppStartup (id : String) (d : DApplication) : DApplication :=
  { d with m_monitoredStartupApps := d.m_monitoredStartupApps ++ [id] }.setOverrideCursor
    CursorShape.WaitCursor

/-- The lambda the constructor connects to `appStartupCompleted` (under
`Q_OS_UNIX`); `QList::removeAll` drops every entry equal to `id`. -/
def DApplicationPrivate.onAppStartupCompleted (id : String) (d : DApplication) : DApplication :=
  let d1 := { d with m_monitoredStartupApps := d.m_monitoredStartupApps.filter (fun x => x ≠ id) }
  if d1.m_monitoredStartupApps.isEmpty then d1.setOverrideCursor CursorShape.ArrowCursor
  else d1

/-- Delivery of one signal to the connected lambda. -/
def DApplicationPrivate.deliver (d : DApplication) : StartupSignal → DApplication
  | StartupSignal.appStartup id => DApplicationPrivate.onAppStartup id d
  | StartupSignal.appStartupCompleted id => DApplicationPrivate.onAppStartupCompleted id d

/-- Delivery of a sequence of signals, oldest first. -/
def DApplicationPrivate.deliverAll (signals : List StartupSignal) (d : DApplication) :
    DApplication :=
  signals.foldl DApplicationPrivate.deliver d

/-! ## Platform plugin override -/

/-- `DXCB_PLUGIN_KEY`. -/
def DXCB_PLUGIN_KEY : String := "dxcb"

/-- The process environment: the variables, and the `qputenv` calls made,
oldest first. -/
structure ProcessEnv where
  vars : List (String × String)
  qputenvCalls : List (String × String)
  deriving DecidableEq, Repr

/-- `qputenv(name, value)`; `ok` is whether the write succeeds. -/
def qputenv (ok : Bool) (name value : String) (p : ProcessEnv) : Bool × ProcessEnv :=
  let p1 := { p with qputenvCalls := p.qputenvCalls ++ [(name, value)] }
  if ok then (true, { p1 with vars := (name, value) :: p1.vars.filter (fun v => v.1 ≠ name) })
  else (false, p1)

/-- `DApplication::loadDXcbPlugin`.  `debugBuild` says whether `Q_ASSERT_X` is
compiled in, `qApp` whether the global application object exists, `keys` is
`QPlatformIntegrationFactory::keys()`; `none` is the abort of a failed
assertion. -/
def DApplication.loadDXcbPlugin (debugBuild qApp : Bool) (keys : List String) (putenvOk : Bool)
    (p : ProcessEnv) : Option (Bool × ProcessEnv) :=
  if debugBuild && qApp then none
  else if !keys.contains DXCB_PLUGIN_KEY then some (false, p)
  else some (qputenv putenvOk "QT_QPA_PLATFORM" DXCB_PLUGIN_KEY p)

/-! ## Vocabulary of the statements -/

/-- The state at `return true` of `DApplicationPrivate::loadTranslator` when the
file of `locale` in `path` is the one found: one debug line and one more
translator, loaded from that directory and locale. -/
def found (env : Env) (path : DPathBuf) (name : String) (locale : QLocale) (q : DApplication) :
    DApplication :=
  (q.write (LogLine.debug ["load translate", translatePath path name locale])).installTranslator
    ⟨translatePath path name locale, "", env.load (translatePath path name locale) ""⟩

/-- The (locale, directory) pairs in locale-major order: every directory for the
first locale, then every directory for the second locale, and so on. -/
def localeMajor (localeFallback : List QLocale) (translateDirs : List DPathBuf) :
    List (QLocale × DPathBuf) :=
  localeFallback.flatMap (fun locale => translateDirs.map (fun path => (locale, path)))

/-- The file name the specification gives for a component, a locale and a
directory: `<directory>/<name>_<locale>.qm`. -/
def specFile (path : DPathBuf) (name : String) (locale : QLocale) : String :=
  path.path ++ "/" ++ name ++ "_" ++ locale.name ++ ".qm"

/-- An outside world in which exactly the listed files exist and every `load`
succeeds; the other answers are empty. -/
def Env.ofFiles (files : List String) : Env :=
  { fileExists := fun p => files.contains p
    load := fun _ _ => true
    standardLocations := []
    applicationDirPath := ""
    currentPath := ""
    systemLocale := ⟨""⟩
    translationsPath := ""
    applicationName := "" }

/-- The directory list the specification gives for a component:
`[s1/a/translations, ..., sn/a/translations, e/translations, c/translations]`. -/
def searchDirs (standard : List String) (a e c : String) : List DPathBuf :=
  standard.map (fun s => ⟨s ++ "/" ++ a ++ "/translations"⟩)
    ++ [⟨e ++ "/translations"⟩, ⟨c ++ "/translations"⟩]

/-- The translators one run of the search installs: the translator of the first
pair, in locale-major order, whose probed file exists, or none. -/
def installedBy (env : Env) (dirs : List DPathBuf) (name : String) (locales : List QLocale) :
    List QTranslator :=
  match (localeMajor locales dirs).find?
      (fun c => env.fileExists (translatePath c.2 name c.1 ++ ".qm")) with
  | some c => [⟨translatePath c.2 name c.1, "", env.load (translatePath c.2 name c.1) ""⟩]
  | none => []

/-- An outside world with one standard data directory `/usr/share`, the
executable in `/opt/app`, the current directory `/home/user`, the system locale
`en_US`, the given application name, in which exactly the listed files exist
and every `load` has the given outcome. -/
def Env.sample (files : List String) (loadOk : Bool) (appName : String) : Env :=
  { fileExists := fun p => files.contains p
    load := fun _ _ => loadOk
    standardLocations := ["/usr/share"]
    applicationDirPath := "/opt/app"
    currentPath := "/home/user"
    systemLocale := ⟨"en_US"⟩
    translationsPath := "/usr/share/qt5/translations"
    applicationName := appName }

/-- Whether a call into the socket layer is a `listen`. -/
def SocketCall.isListen : SocketCall → Bool
  | SocketCall.listen _ => true
  | _ => false

/-- The most recent signal of a sequence (oldest first) that carries `id`. -/
def mostRecent (signals : List StartupSignal) (id : String) : Option StartupSignal :=
  (signals.filter (fun s => s.id = id)).getLast?

/-- The cursor invariant between signals: while an identifier is pending, the
active override cursor is the busy cursor. -/
def busyWhilePending (d : DApplication) : Prop :=
  d.m_monitoredStartupApps ≠ [] → d.overrideCursor = some CursorShape.WaitCursor

end Dtk

namespace Dtk

/-! ## Facts about `QString::arg` -/

theorem pieces_template :
    pieces 0 "%1_%2".data
      = [Piece.marker 1 ['%', '1'], Piece.lit '_', Piece.marker 2 ['%', '2']] := by
  decide

/-- The first `arg` of the file-name template puts the component name in front
of `_%2`, whatever the name is. -/
theorem arg_template (name : String) : QString.arg "%1_%2" name = name ++ "_%2" := by
  unfold QString.arg
  rw [pieces_template]
  apply String.ext
  simp [minEscape, Piece.subst, List.flatMap]

/-- The example of the Qt documentation of `QString::arg`: with `str = "%1 %2"`,
`str.arg("%1f").arg("Hello")` is `"Hellof %2"`. -/
theorem arg_chained : QString.arg (QString.arg "%1 %2" "%1f") "Hello" = "Hellof %2" := by
  decide

theorem pieces_lit_append (l t : List Char) (h : '%' ∉ l) :
    pieces 0 (l ++ t) = l.map Piece.lit ++ pieces 0 t := by
  induction l with
  | nil => simp
  | cons c cs ih =>
    have hc : c ≠ '%' := fun e => h (by simp [e])
    have hcs : '%' ∉ cs := fun e => h (by simp [e])
    simp [pieces, hc, ih hcs]

theorem minEscape_lit_append (l : List Char) (ps : List Piece) :
    minEscape (l.map Piece.lit ++ ps) = minEscape ps := by
  induction l with
  | nil => simp
  | cons c cs ih => simpa [minEscape] using ih

theorem flatMap_subst_lit_append (m : Nat) (a l : List Char) (ps : List Piece) :
    (l.map Piece.lit ++ ps).flatMap (Piece.subst m a) = l ++ ps.flatMap (Piece.subst m a) := by
  induction l with
  | nil => simp
  | cons c cs ih => simp [List.flatMap_cons, Piece.subst, ih]

theorem pieces_tail : pieces 0 "_%2".data = [Piece.lit '_', Piece.marker 2 ['%', '2']] := by
  decide

/-- For a component name without a `%` the file name is `<name>_<locale>`. -/
theorem translateFilename_eq (name : String) (locale : QLocale) (h : '%' ∉ name.data) :
    translateFilename name locale = name ++ "_" ++ locale.name := by
  unfold translateFilename
  rw [arg_template]
  unfold QString.arg
  rw [String.data_append, pieces_lit_append _ _ h, pieces_tail, minEscape_lit_append]
  have hm : minEscape [Piece.lit '_', Piece.marker 2 ['%', '2']] = some 2 := by decide
  rw [hm]
  apply String.ext
  show (name.data.map Piece.lit ++ [Piece.lit '_', Piece.marker 2 ['%', '2']]).flatMap
      (Piece.subst 2 locale.name.data) = (name ++ "_" ++ locale.name).data
  rw [flatMap_subst_lit_append]
  simp [Piece.subst, List.flatMap]

/-! ## The search of `DApplicationPrivate::loadTranslator` -/

theorem dirLoop_eq (env : Env) (name : String) (locale : QLocale) (q : DApplication)
    (dirs : List DPathBuf) :
    DApplicationPrivate.loadTranslator.dirLoop env name locale q dirs
      = (dirs.find? (fun path => env.fileExists (translatePath path name locale ++ ".qm"))).map
          (fun path => found env path name locale q) := by
  induction dirs with
  | nil => rfl
  | cons d ds ih =>
    by_cases h : env.fileExists (translatePath d name locale ++ ".qm") = true
    · simp [DApplicationPrivate.loadTranslator.dirLoop, h, found]
    · simp [DApplicationPrivate.loadTranslator.dirLoop, h, ih]

theorem localeLoop_eq (env : Env) (dirs : List DPathBuf) (name : String) (q : DApplication)
    (locales : List QLocale) :
    DApplicationPrivate.loadTranslator.localeLoop env dirs name q locales
      = ((localeMajor locales dirs).find?
            (fun c => env.fileExists (translatePath c.2 name c.1 ++ ".qm"))).map
          (fun c => found env c.2 name c.1 q) := by
  induction locales with
  | nil => rfl
  | cons l ls ih =>
    unfold DApplicationPrivate.loadTranslator.localeLoop
    rw [dirLoop_eq, ih]
    simp only [localeMajor, List.flatMap_cons, List.find?_append, List.find?_map]
    cases hd : dirs.find? (fun path => env.fileExists (translatePath path name l ++ ".qm")) with
    | none =>
      have : List.find? ((fun c : QLocale × DPathBuf =>
          env.fileExists (translatePath c.2 name c.1 ++ ".qm")) ∘ fun path => (l, path)) dirs
          = none := hd
      simp [this]
    | some d =>
      have : List.find? ((fun c : QLocale × DPathBuf =>
          env.fileExists (translatePath c.2 name c.1 ++ ".qm")) ∘ fun path => (l, path)) dirs
          = some d := hd
      simp [this]

/-- What "first in locale-major order" means: the pair found has the earliest
locale with a match in any directory and, for that locale, the earliest matching
directory. -/
theorem localeMajor_find (p : QLocale × DPathBuf → Bool) (locales : List QLocale)
    (dirs : List DPathBuf) (l : QLocale) (d : DPathBuf)
    (h : (localeMajor locales dirs).find? p = some (l, d)) :
    ∃ ls1 ls2 ds1 ds2, locales = ls1 ++ l :: ls2 ∧ dirs = ds1 ++ d :: ds2
      ∧ (∀ l1 ∈ ls1, ∀ d1 ∈ dirs, p (l1, d1) = false)
      ∧ (∀ d1 ∈ ds1, p (l, d1) = false)
      ∧ p (l, d) = true := by
  induction locales with
  | nil => simp [localeMajor] at h
  | cons l0 ls ih =>
    have hcons : localeMajor (l0 :: ls) dirs
        = dirs.map (fun path => (l0, path)) ++ localeMajor ls dirs := by
      simp [localeMajor]
    rw [hcons, List.find?_append] at h
    cases hd : (dirs.map (fun path => (l0, path))).find? p with
    | some c =>
      rw [hd] at h
      simp only [Option.or_some, Option.some.injEq] at h
      subst h
      rw [List.find?_map] at hd
      cases hd2 : dirs.find? (p ∘ fun path => (l0, path)) with
      | none => simp [hd2] at hd
      | some d0 =>
        rw [hd2] at hd
        simp only [Option.map_some', Option.some.injEq, Prod.mk.injEq] at hd
        obtain ⟨rfl, rfl⟩ := hd
        rw [List.find?_eq_some] at hd2
        obtain ⟨hp, ds1, ds2, hds, hbefore⟩ := hd2
        refine ⟨[], ls, ds1, ds2, rfl, hds, by simp, ?_, hp⟩
        intro d1 hd1
        simpa using hbefore d1 hd1
    | none =>
      rw [hd] at h
      simp only [Option.none_or] at h
      obtain ⟨ls1, ls2, ds1, ds2, hls, hds, h1, h2, h3⟩ := ih h
      refine ⟨l0 :: ls1, ls2, ds1, ds2, by simp [hls], hds, ?_, h2, h3⟩
      intro l1 hl1 d1 hd1
      rcases List.mem_cons.mp hl1 with e | e
      · subst e
        rw [List.find?_eq_none] at hd
        simpa using hd (l1, d1) (List.mem_map.mpr ⟨d1, hd1, rfl⟩)
      · exact h1 l1 e d1 hd1

/-- The loader returns true exactly at the first pair, in locale-major order,
whose probed file exists, and installs the translator of that pair; the probed
file is the one the code builds with `QString::arg`. -/
theorem loadTranslator_eq (env : Env) (dirs : List DPathBuf) (name : String)
    (locales : List QLocale) (q : DApplication) :
    DApplicationPrivate.loadTranslator env dirs name locales q
      = match (localeMajor locales dirs).find?
            (fun c => env.fileExists (translatePath c.2 name c.1 ++ ".qm")) with
        | some c => (true, found env c.2 name c.1 q)
        | none => (false, q.write (LogLine.warning [name, "can not find qm files"])) := by
  unfold DApplicationPrivate.loadTranslator
  rw [localeLoop_eq]
  cases (localeMajor locales dirs).find?
    (fun c => env.fileExists (translatePath c.2 name c.1 ++ ".qm")) <;> rfl

theorem translatePath_qm (path : DPathBuf) (name : String) (locale : QLocale)
    (h : '%' ∉ name.data) :
    translatePath path name locale ++ ".qm" = specFile path name locale := by
  simp [translatePath, specFile, DPathBuf.join, DPathBuf.toString, translateFilename_eq _ _ h,
    String.append_assoc]

/-- For a component name without a `%`: when some (locale, directory) pair has
an existing file `<directory>/<name>_<locale>.qm`, the loader returns true and
installs exactly one translator, the one of the first such pair in locale-major
order. -/
theorem loadTranslator_first_match (env : Env) (dirs : List DPathBuf) (name : String)
    (locales : List QLocale) (q : DApplication) (hname : '%' ∉ name.data)
    (hex : ∃ l ∈ locales, ∃ d ∈ dirs, env.fileExists (specFile d name l) = true) :
    ∃ l d, (localeMajor locales dirs).find? (fun c => env.fileExists (specFile c.2 name c.1))
          = some (l, d)
      ∧ DApplicationPrivate.loadTranslator env dirs name locales q = (true, found env d name l q)
      ∧ (found env d name l q).translators
          = q.translators ++ [⟨d.path ++ "/" ++ name ++ "_" ++ l.name, "",
              env.load (d.path ++ "/" ++ name ++ "_" ++ l.name) ""⟩] := by
  have hp : (fun c : QLocale × DPathBuf => env.fileExists (translatePath c.2 name c.1 ++ ".qm"))
      = fun c => env.fileExists (specFile c.2 name c.1) := by
    funext c
    rw [translatePath_qm _ _ _ hname]
  obtain ⟨l0, hl0, d0, hd0, h0⟩ := hex
  have hmem : (l0, d0) ∈ localeMajor locales dirs := by
    simp only [localeMajor, List.mem_flatMap, List.mem_map]
    exact ⟨l0, hl0, d0, hd0, rfl⟩
  cases hf : (localeMajor locales dirs).find? (fun c => env.fileExists (specFile c.2 name c.1)) with
  | none =>
    rw [List.find?_eq_none] at hf
    exact absurd h0 (hf _ hmem)
  | some c =>
    refine ⟨c.1, c.2, rfl, ?_, ?_⟩
    · rw [loadTranslator_eq, hp, hf]
    · simp [found, DApplication.installTranslator, DApplication.write, translatePath,
        DPathBuf.join, DPathBuf.toString, translateFilename_eq _ _ hname, String.append_assoc]

theorem loadTranslator_first_match_witness :
    ∃ l d, (localeMajor [⟨"zh_CN"⟩, ⟨"en_US"⟩] [⟨"./translations"⟩]).find?
          (fun c => (Env.ofFiles ["./translations/app_en_US.qm"]).fileExists (specFile c.2 "app" c.1))
          = some (l, d)
      ∧ DApplicationPrivate.loadTranslator (Env.ofFiles ["./translations/app_en_US.qm"])
          [⟨"./translations"⟩] "app" [⟨"zh_CN"⟩, ⟨"en_US"⟩] DApplication.new
          = (true, found (Env.ofFiles ["./translations/app_en_US.qm"]) d "app" l DApplication.new)
      ∧ (found (Env.ofFiles ["./translations/app_en_US.qm"]) d "app" l DApplication.new).translators
          = DApplication.new.translators ++ [⟨d.path ++ "/" ++ "app" ++ "_" ++ l.name, "",
              (Env.ofFiles ["./translations/app_en_US.qm"]).load
                (d.path ++ "/" ++ "app" ++ "_" ++ l.name) ""⟩] :=
  loadTranslator_first_match (Env.ofFiles ["./translations/app_en_US.qm"]) [⟨"./translations"⟩]
    "app" [⟨"zh_CN"⟩, ⟨"en_US"⟩] DApplication.new (by decide)
    ⟨⟨"en_US"⟩, by decide, ⟨"./translations"⟩, by decide, by decide⟩

/-- Locale preference dominates directory preference: with locales `[A, B]` and
directories `[D1, D2]`, `app_A.qm` only in `D2` and `app_B.qm` in `D1`, the file
of `A` in `D2` is the one loaded. -/
theorem loadTranslator_locale_dominates :
    DApplicationPrivate.loadTranslator (Env.ofFiles ["D2/app_A.qm", "D1/app_B.qm"])
        [⟨"D1"⟩, ⟨"D2"⟩] "app" [⟨"A"⟩, ⟨"B"⟩] DApplication.new
      = (true, { DApplication.new with
          translators := [⟨"D2/app_A", "", true⟩]
          log := [LogLine.debug ["load translate", "D2/app_A"]] }) := by
  decide

/-- With locales `[zh_CN, en_US]`, one directory and only `app_en_US.qm` present,
the loader falls through to `en_US` and returns true. -/
theorem loadTranslator_falls_through :
    DApplicationPrivate.loadTranslator (Env.ofFiles ["./translations/app_en_US.qm"])
        [⟨"./translations"⟩] "app" [⟨"zh_CN"⟩, ⟨"en_US"⟩] DApplication.new
      = (true, { DApplication.new with
          translators := [⟨"./translations/app_en_US", "", true⟩]
          log := [LogLine.debug ["load translate", "./translations/app_en_US"]] }) := by
  decide

/-- For a component name without a `%`: when no (locale, directory) pair has an
existing file `<directory>/<name>_<locale>.qm`, the loader returns false, writes
one warning and leaves the installed translators as they were. -/
theorem loadTranslator_no_match (env : Env) (dirs : List DPathBuf) (name : String)
    (locales : List QLocale) (q : DApplication) (hname : '%' ∉ name.data)
    (hno : ∀ l ∈ locales, ∀ d ∈ dirs, env.fileExists (specFile d name l) = false) :
    DApplicationPrivate.loadTranslator env dirs name locales q
        = (false, q.write (LogLine.warning [name, "can not find qm files"]))
      ∧ (DApplicationPrivate.loadTranslator env dirs name locales q).2.translators
        = q.translators := by
  have hf : (localeMajor locales dirs).find?
      (fun c => env.fileExists (translatePath c.2 name c.1 ++ ".qm")) = none := by
    rw [List.find?_eq_none]
    intro c hc
    simp only [localeMajor, List.mem_flatMap, List.mem_map] at hc
    obtain ⟨l, hl, d, hd, rfl⟩ := hc
    simp [translatePath_qm _ _ _ hname, hno l hl d hd]
  rw [loadTranslator_eq, hf]
  exact ⟨rfl, rfl⟩

theorem loadTranslator_no_match_witness :
    DApplicationPrivate.loadTranslator (Env.ofFiles ["./translations/app_en_US.qm"])
        [⟨"./translations"⟩] "app" [⟨"zh_CN"⟩] DApplication.new
        = (false, DApplication.new.write (LogLine.warning ["app", "can not find qm files"]))
      ∧ (DApplicationPrivate.loadTranslator (Env.ofFiles ["./translations/app_en_US.qm"])
          [⟨"./translations"⟩] "app" [⟨"zh_CN"⟩] DApplication.new).2.translators
        = DApplication.new.translators :=
  loadTranslator_no_match (Env.ofFiles ["./translations/app_en_US.qm"]) [⟨"./translations"⟩]
    "app" [⟨"zh_CN"⟩] DApplication.new (by decide) (by decide)

/-- C1, at the component name `%1`: the file `d/%1_en_US.qm` of the pair
(`en_US`, `d`) exists, yet the loader returns false and installs no translator.
The second `arg` replaces the `%1` of the name, not the `%2` of the template, so
the file probed is `d/en_US_%2.qm`. -/
theorem loadTranslator_place_marker_name_missed :
    (∃ l ∈ [(⟨"en_US"⟩ : QLocale)], ∃ d ∈ [(⟨"d"⟩ : DPathBuf)],
        (Env.ofFiles ["d/%1_en_US.qm"]).fileExists (specFile d "%1" l) = true)
      ∧ translateFilename "%1" ⟨"en_US"⟩ = "en_US_%2"
      ∧ DApplicationPrivate.loadTranslator (Env.ofFiles ["d/%1_en_US.qm"]) [⟨"d"⟩] "%1"
          [⟨"en_US"⟩] DApplication.new
        = (false, { DApplication.new with
            log := [LogLine.warning ["%1", "can not find qm files"]] }) := by
  refine ⟨⟨⟨"en_US"⟩, by decide, ⟨"d"⟩, by decide, by decide⟩, by decide, by decide⟩

/-- C2, at the component name `%1`: no pair has an existing file
`<directory>/%1_<locale>.qm`, yet the loader returns true and installs a
translator, loaded from `d/en_US_%2`. -/
theorem loadTranslator_place_marker_name_loaded :
    (∀ l ∈ [(⟨"en_US"⟩ : QLocale)], ∀ d ∈ [(⟨"d"⟩ : DPathBuf)],
        (Env.ofFiles ["d/en_US_%2.qm"]).fileExists (specFile d "%1" l) = false)
      ∧ DApplicationPrivate.loadTranslator (Env.ofFiles ["d/en_US_%2.qm"]) [⟨"d"⟩] "%1"
          [⟨"en_US"⟩] DApplication.new
        = (true, { DApplication.new with
            translators := [⟨"d/en_US_%2", "", true⟩]
            log := [LogLine.debug ["load translate", "d/en_US_%2"]] }) := by
  refine ⟨by decide, by decide⟩

/-! ## The public loader -/

theorem join_translations (x : String) : x ++ "/" ++ "translations" = x ++ "/translations" := by
  rw [String.append_assoc]
  rfl

theorem dirs_eq (standard : List String) (a e c : String) :
    standard.map (fun path => ((DPathBuf.mk path).join a).join "translations")
        ++ [(DPathBuf.mk e).join "translations"] ++ [(DPathBuf.mk c).join "translations"]
      = searchDirs standard a e c := by
  simp [searchDirs, DPathBuf.join, join_translations]

/-- The dtkwidget search runs over the directories
`[s1/dtkwidget/translations, ..., e/translations, c/translations]`, after the Qt
base translator was installed. -/
theorem loadDtkTranslator_eq (env : Env) (locales : List QLocale) (q : DApplication) :
    DApplicationPrivate.loadDtkTranslator env locales q
      = DApplicationPrivate.loadTranslator env
          (searchDirs env.standardLocations "dtkwidget" env.applicationDirPath env.currentPath)
          "dtkwidget" locales (q.installTranslator (qtTranslator env)) := by
  unfold DApplicationPrivate.loadDtkTranslator
  simp only [dirs_eq]

/-- The application search of the public loader runs over the directories
`[s1/a/translations, ..., sn/a/translations, e/translations, c/translations]`
with `a` the application name, on the state the dtkwidget search left. -/
theorem public_loadTranslator_eq (env : Env) (locales : List QLocale) (q : DApplication) :
    DApplication.loadTranslator env locales q
      = DApplicationPrivate.loadTranslator env
          (searchDirs env.standardLocations env.applicationName env.applicationDirPath
            env.currentPath)
          env.applicationName locales
          (DApplicationPrivate.loadDtkTranslator env locales q).2 := by
  unfold DApplication.loadTranslator
  simp only [dirs_eq]

/-- The directory list has `n + 2` entries. -/
theorem searchDirs_length (standard : List String) (a e c : String) :
    (searchDirs standard a e c).length = standard.length + 2 := by
  simp [searchDirs]

theorem loadTranslator_fst (env : Env) (dirs : List DPathBuf) (name : String)
    (locales : List QLocale) (q : DApplication) :
    (DApplicationPrivate.loadTranslator env dirs name locales q).1
      = ((localeMajor locales dirs).find?
          (fun c => env.fileExists (translatePath c.2 name c.1 ++ ".qm"))).isSome := by
  rw [loadTranslator_eq]
  cases (localeMajor locales dirs).find?
    (fun c => env.fileExists (translatePath c.2 name c.1 ++ ".qm")) <;> rfl

theorem loadTranslator_translators (env : Env) (dirs : List DPathBuf) (name : String)
    (locales : List QLocale) (q : DApplication) :
    (DApplicationPrivate.loadTranslator env dirs name locales q).2.translators
      = q.translators ++ installedBy env dirs name locales := by
  rw [loadTranslator_eq]
  unfold installedBy
  cases (localeMajor locales dirs).find?
    (fun c => env.fileExists (translatePath c.2 name c.1 ++ ".qm")) <;>
    simp [found, DApplication.installTranslator, DApplication.write]

theorem find?_congr_mem {α : Type} (p r : α → Bool) (l : List α)
    (h : ∀ x ∈ l, p x = r x) : (l.find? p).isSome = (l.find? r).isSome := by
  induction l with
  | nil => rfl
  | cons x xs ih =>
    have hx : p x = r x := h x (by simp)
    have hxs : ∀ y ∈ xs, p y = r y := fun y hy => h y (by simp [hy])
    cases hr : r x <;> simp [List.find?, hx, hr, ih hxs]

/-- The dtkwidget search probes `<directory>/dtkwidget_<locale>.qm`. -/
theorem translatePath_qm_dtkwidget (path : DPathBuf) (locale : QLocale) :
    translatePath path "dtkwidget" locale ++ ".qm" = specFile path "dtkwidget" locale :=
  translatePath_qm path "dtkwidget" locale (by decide)

/-- C9, at the application name `%1`: the executable directory `/opt/app` is
searched under `/opt/app/translations`, and the file
`/opt/app/translations/%1_en_US.qm` exists there, yet the public loader returns
false; when `/opt/app/translations/en_US_%2.qm` exists instead it returns true
and loads that file.  The file probed for a directory and a locale is not
`<directory>/<component>_<locale>.qm` for this name. -/
theorem public_loadTranslator_place_marker_name :
    (⟨"/opt/app/translations"⟩ : DPathBuf)
        ∈ searchDirs ["/usr/share"] "%1" "/opt/app" "/home/user"
      ∧ specFile ⟨"/opt/app/translations"⟩ "%1" ⟨"en_US"⟩ = "/opt/app/translations/%1_en_US.qm"
      ∧ (DApplication.loadTranslator (Env.sample ["/opt/app/translations/%1_en_US.qm"] true "%1")
          [⟨"en_US"⟩] DApplication.new).1 = false
      ∧ DApplication.loadTranslator (Env.sample ["/opt/app/translations/en_US_%2.qm"] true "%1")
          [⟨"en_US"⟩] DApplication.new
        = (true, { DApplication.new with
            translators := [⟨"qt_en_US", "/usr/share/qt5/translations", true⟩,
              ⟨"/opt/app/translations/en_US_%2", "", true⟩]
            log := [LogLine.warning ["dtkwidget", "can not find qm files"],
              LogLine.debug ["load translate", "/opt/app/translations/en_US_%2"]] }) := by
  refine ⟨by decide, by decide, by decide, by decide⟩

/-- C10: the boolean the public loader returns is the result of the application
search alone.  Two runs whose outside worlds agree on the application name, on
the three directory sources and on the existence of the files the application
search probes return the same boolean, whatever the outcome of the Qt base load
and of the dtkwidget search is in each; and the translators installed are, in
this order, the Qt base translator (always), the one of the dtkwidget search (if
it found a file), the one of the application search (if it found a file). -/
theorem public_loadTranslator_result (env1 env2 : Env) (locales : List QLocale)
    (q1 q2 : DApplication)
    (hs : env1.standardLocations = env2.standardLocations)
    (hn : env1.applicationName = env2.applicationName)
    (he : env1.applicationDirPath = env2.applicationDirPath)
    (hc : env1.currentPath = env2.currentPath)
    (hf : ∀ l ∈ locales, ∀ d ∈ searchDirs env1.standardLocations env1.applicationName
        env1.applicationDirPath env1.currentPath,
      env1.fileExists (translatePath d env1.applicationName l ++ ".qm")
        = env2.fileExists (translatePath d env1.applicationName l ++ ".qm")) :
    (DApplication.loadTranslator env1 locales q1).1 = (DApplication.loadTranslator env2 locales q2).1
      ∧ (∀ q, (DApplication.loadTranslator env1 locales q1).1
          = (DApplicationPrivate.loadTranslator env1
              (searchDirs env1.standardLocations env1.applicationName env1.applicationDirPath
                env1.currentPath) env1.applicationName locales q).1)
      ∧ (DApplication.loadTranslator env1 locales q1).2.translators
          = q1.translators ++ qtTranslator env1 ::
              (installedBy env1
                  (searchDirs env1.standardLocations "dtkwidget" env1.applicationDirPath
                    env1.currentPath) "dtkwidget" locales
                ++ installedBy env1
                  (searchDirs env1.standardLocations env1.applicationName env1.applicationDirPath
                    env1.currentPath) env1.applicationName locales) := by
  refine ⟨?_, ?_, ?_⟩
  · rw [public_loadTranslator_eq, public_loadTranslator_eq, loadTranslator_fst, loadTranslator_fst,
      ← hs, ← hn, ← he, ← hc]
    apply find?_congr_mem
    intro c hcm
    simp only [localeMajor, List.mem_flatMap, List.mem_map] at hcm
    obtain ⟨l, hl, d, hd, rfl⟩ := hcm
    exact hf l hl d hd
  · intro q
    rw [public_loadTranslator_eq, loadTranslator_fst, loadTranslator_fst]
  · rw [public_loadTranslator_eq, loadTranslator_translators, loadDtkTranslator_eq,
      loadTranslator_translators]
    simp [DApplication.installTranslator]

theorem public_loadTranslator_result_witness :
    (DApplication.loadTranslator
        (Env.sample ["/usr/share/dtkwidget/translations/dtkwidget_en_US.qm",
          "/home/user/translations/app_en_US.qm"] true "app") [⟨"en_US"⟩] DApplication.new).1
      = (DApplication.loadTranslator
        (Env.sample ["/home/user/translations/app_en_US.qm"] false "app") [⟨"en_US"⟩]
        DApplication.new).1
      ∧ (∀ q, (DApplication.loadTranslator
          (Env.sample ["/usr/share/dtkwidget/translations/dtkwidget_en_US.qm",
            "/home/user/translations/app_en_US.qm"] true "app") [⟨"en_US"⟩] DApplication.new).1
          = (DApplicationPrivate.loadTranslator
              (Env.sample ["/usr/share/dtkwidget/translations/dtkwidget_en_US.qm",
                "/home/user/translations/app_en_US.qm"] true "app")
              (searchDirs ["/usr/share"] "app" "/opt/app" "/home/user") "app" [⟨"en_US"⟩] q).1)
      ∧ (DApplication.loadTranslator
          (Env.sample ["/usr/share/dtkwidget/translations/dtkwidget_en_US.qm",
            "/home/user/translations/app_en_US.qm"] true "app") [⟨"en_US"⟩]
          DApplication.new).2.translators
          = DApplication.new.translators ++
              qtTranslator (Env.sample ["/usr/share/dtkwidget/translations/dtkwidget_en_US.qm",
                "/home/user/translations/app_en_US.qm"] true "app") ::
              (installedBy (Env.sample ["/usr/share/dtkwidget/translations/dtkwidget_en_US.qm",
                    "/home/user/translations/app_en_US.qm"] true "app")
                  (searchDirs ["/usr/share"] "dtkwidget" "/opt/app" "/home/user") "dtkwidget"
                  [⟨"en_US"⟩]
                ++ installedBy (Env.sample ["/usr/share/dtkwidget/translations/dtkwidget_en_US.qm",
                    "/home/user/translations/app_en_US.qm"] true "app")
                  (searchDirs ["/usr/share"] "app" "/opt/app" "/home/user") "app" [⟨"en_US"⟩]) :=
  public_loadTranslator_result
    (Env.sample ["/usr/share/dtkwidget/translations/dtkwidget_en_US.qm",
      "/home/user/translations/app_en_US.qm"] true "app")
    (Env.sample ["/home/user/translations/app_en_US.qm"] false "app") [⟨"en_US"⟩]
    DApplication.new DApplication.new rfl rfl rfl rfl (by decide)

/-- A run in which both searches find a file: the Qt base translator is first,
then the dtkwidget translator, then the application's. -/
theorem public_loadTranslator_order :
    (DApplication.loadTranslator
        (Env.sample ["/usr/share/dtkwidget/translations/dtkwidget_en_US.qm",
          "/home/user/translations/app_en_US.qm"] true "app") [⟨"en_US"⟩]
        DApplication.new).2.translators
      = [⟨"qt_en_US", "/usr/share/qt5/translations", true⟩,
          ⟨"/usr/share/dtkwidget/translations/dtkwidget_en_US", "", true⟩,
          ⟨"/home/user/translations/app_en_US", "", true⟩] := by
  decide

/-! ## Single-instance guard -/

/-- With a server stored, a call returns its listening state and changes
nothing. -/
theorem setSingleInstance_stored (o : Outcome) (key : String) (d : DApplication)
    (server : QLocalServer) (h : d.m_localServer = some server) :
    DApplicationPrivate.setSingleInstance o key d = (server.listening, d) := by
  simp [DApplicationPrivate.setSingleInstance, h]

theorem setSingleInstance_true (o : Outcome) (key : String) (d : DApplication)
    (h : (DApplicationPrivate.setSingleInstance o key d).1 = true) :
    ∃ server, (DApplicationPrivate.setSingleInstance o key d).2.m_localServer = some server
      ∧ server.listening = true := by
  unfold DApplicationPrivate.setSingleInstance at h ⊢
  cases hs : d.m_localServer with
  | some server =>
    simp only [hs] at h ⊢
    exact ⟨server, rfl, h⟩
  | none =>
    simp only [hs] at h ⊢
    cases hc : o.connected with
    | true => simp [hc] at h
    | false =>
      simp only [hc] at h ⊢
      exact ⟨_, rfl, by simpa using h⟩

/-- C3: after a call `setSingleInstance(k1)` that returned true, the object
stores a listening server; on any later state of the object with that server
still stored, a call `setSingleInstance(k2)` returns true and changes nothing:
no call into the socket layer is made (no connect probe, no removal, no new
server, no listen) and the stored server is the same. -/
theorem setSingleInstance_again (o1 o2 : Outcome) (k1 k2 : String) (d d1 : DApplication)
    (h1 : (DApplicationPrivate.setSingleInstance o1 k1 d).1 = true)
    (h2 : d1.m_localServer = (DApplicationPrivate.setSingleInstance o1 k1 d).2.m_localServer) :
    (∃ server, d1.m_localServer = some server ∧ server.listening = true)
      ∧ DApplicationPrivate.setSingleInstance o2 k2 d1 = (true, d1)
      ∧ (DApplicationPrivate.setSingleInstance o2 k2 d1).2.socketCalls = d1.socketCalls
      ∧ (DApplicationPrivate.setSingleInstance o2 k2 d1).2.m_localServer = d1.m_localServer := by
  obtain ⟨server, hs, hl⟩ := setSingleInstance_true o1 k1 d h1
  have hd1 : d1.m_localServer = some server := h2.trans hs
  have hcall := setSingleInstance_stored o2 k2 d1 server hd1
  rw [hl] at hcall
  exact ⟨⟨server, hd1, hl⟩, hcall, by rw [hcall], by rw [hcall]⟩

theorem setSingleInstance_again_witness :
    (∃ server, (DApplicationPrivate.setSingleInstance ⟨false, true⟩ "myapp-lock"
          DApplication.new).2.m_localServer = some server ∧ server.listening = true)
      ∧ DApplicationPrivate.setSingleInstance ⟨false, true⟩ "other-key"
          (DApplicationPrivate.setSingleInstance ⟨false, true⟩ "myapp-lock" DApplication.new).2
        = (true, (DApplicationPrivate.setSingleInstance ⟨false, true⟩ "myapp-lock"
            DApplication.new).2)
      ∧ (DApplicationPrivate.setSingleInstance ⟨false, true⟩ "other-key"
          (DApplicationPrivate.setSingleInstance ⟨false, true⟩ "myapp-lock"
            DApplication.new).2).2.socketCalls
        = (DApplicationPrivate.setSingleInstance ⟨false, true⟩ "myapp-lock"
            DApplication.new).2.socketCalls
      ∧ (DApplicationPrivate.setSingleInstance ⟨false, true⟩ "other-key"
          (DApplicationPrivate.setSingleInstance ⟨false, true⟩ "myapp-lock"
            DApplication.new).2).2.m_localServer
        = (DApplicationPrivate.setSingleInstance ⟨false, true⟩ "myapp-lock"
            DApplication.new).2.m_localServer :=
  setSingleInstance_again ⟨false, true⟩ ⟨false, true⟩ "myapp-lock" "other-key" DApplication.new
    (DApplicationPrivate.setSingleInstance ⟨false, true⟩ "myapp-lock" DApplication.new).2
    (by decide) rfl

/-- C4: with no server stored and a failed connect probe, the call makes these
calls into the socket layer, in this order: the probe, the creation of the
server, `removeServer(key)`, the signal connection, one `listen(key)`; it stores
the server and returns the result of that `listen`. -/
theorem setSingleInstance_listen (o : Outcome) (key : String) (d : DApplication)
    (hs : d.m_localServer = none) (hc : o.connected = false) :
    DApplicationPrivate.setSingleInstance o key d
        = (o.listenOk, { d with
            socketCalls := d.socketCalls ++ [SocketCall.connectToServer key,
              SocketCall.waitForConnected 1000, SocketCall.deleteLater, SocketCall.newLocalServer,
              SocketCall.removeServer key, SocketCall.connectNewConnection, SocketCall.listen key]
            m_localServer := some (QLocalServer.listen o.listenOk key) })
      ∧ (QLocalServer.listen o.listenOk key).listening = o.listenOk := by
  cases hl : o.listenOk <;>
    simp [DApplicationPrivate.setSingleInstance, hs, hc, hl, DApplication.call,
      QLocalServer.listen]

theorem setSingleInstance_listen_witness :
    DApplicationPrivate.setSingleInstance ⟨false, false⟩ "myapp-lock" DApplication.new
        = ((⟨false, false⟩ : Outcome).listenOk, { DApplication.new with
            socketCalls := DApplication.new.socketCalls ++ [SocketCall.connectToServer "myapp-lock",
              SocketCall.waitForConnected 1000, SocketCall.deleteLater, SocketCall.newLocalServer,
              SocketCall.removeServer "myapp-lock", SocketCall.connectNewConnection,
              SocketCall.listen "myapp-lock"]
            m_localServer := some (QLocalServer.listen (⟨false, false⟩ : Outcome).listenOk
              "myapp-lock") })
      ∧ (QLocalServer.listen (⟨false, false⟩ : Outcome).listenOk "myapp-lock").listening
        = (⟨false, false⟩ : Outcome).listenOk :=
  setSingleInstance_listen ⟨false, false⟩ "myapp-lock" DApplication.new rfl rfl

/-- C5: with no server stored and a successful connect probe, the call returns
false after the probe alone: no server is created or stored, nothing is removed,
there is no `listen`, every other field of the object is as before; and a later
call starts with a connect probe again. -/
theorem setSingleInstance_already_running (o : Outcome) (key : String) (d : DApplication)
    (hs : d.m_localServer = none) (hc : o.connected = true) :
    DApplicationPrivate.setSingleInstance o key d
        = (false, { d with
            socketCalls := d.socketCalls ++ [SocketCall.connectToServer key,
              SocketCall.waitForConnected 1000, SocketCall.deleteLater] })
      ∧ (DApplicationPrivate.setSingleInstance o key d).2.m_localServer = none
      ∧ ∀ (o2 : Outcome) (k2 : String), ∃ rest,
          (DApplicationPrivate.setSingleInstance o2 k2
              (DApplicationPrivate.setSingleInstance o key d).2).2.socketCalls
            = (DApplicationPrivate.setSingleInstance o key d).2.socketCalls
              ++ SocketCall.connectToServer k2 :: SocketCall.waitForConnected 1000 :: rest := by
  have h : DApplicationPrivate.setSingleInstance o key d
      = (false, { d with
          socketCalls := d.socketCalls ++ [SocketCall.connectToServer key,
            SocketCall.waitForConnected 1000, SocketCall.deleteLater] }) := by
    simp [DApplicationPrivate.setSingleInstance, hs, hc, DApplication.call]
  refine ⟨h, by rw [h]; exact hs, ?_⟩
  intro o2 k2
  rw [h]
  cases hc2 : o2.connected
  · exact ⟨[SocketCall.deleteLater, SocketCall.newLocalServer, SocketCall.removeServer k2,
      SocketCall.connectNewConnection, SocketCall.listen k2], by
      simp [DApplicationPrivate.setSingleInstance, hs, hc2, DApplication.call]⟩
  · exact ⟨[SocketCall.deleteLater], by
      simp [DApplicationPrivate.setSingleInstance, hs, hc2, DApplication.call]⟩

theorem setSingleInstance_already_running_witness :
    DApplicationPrivate.setSingleInstance ⟨true, true⟩ "myapp-lock" DApplication.new
        = (false, { DApplication.new with
            socketCalls := DApplication.new.socketCalls ++ [SocketCall.connectToServer "myapp-lock",
              SocketCall.waitForConnected 1000, SocketCall.deleteLater] })
      ∧ (DApplicationPrivate.setSingleInstance ⟨true, true⟩ "myapp-lock"
          DApplication.new).2.m_localServer = none
      ∧ ∀ (o2 : Outcome) (k2 : String), ∃ rest,
          (DApplicationPrivate.setSingleInstance o2 k2
              (DApplicationPrivate.setSingleInstance ⟨true, true⟩ "myapp-lock"
                DApplication.new).2).2.socketCalls
            = (DApplicationPrivate.setSingleInstance ⟨true, true⟩ "myapp-lock"
                DApplication.new).2.socketCalls
              ++ SocketCall.connectToServer k2 :: SocketCall.waitForConnected 1000 :: rest :=
  setSingleInstance_already_running ⟨true, true⟩ "myapp-lock" DApplication.new rfl rfl

/-- With a server stored, a whole sequence of calls changes nothing and every
call returns the listening state of that server. -/
theorem setSingleInstanceSeq_stored (calls : List (String × Outcome)) (d : DApplication)
    (server : QLocalServer) (h : d.m_localServer = some server) :
    setSingleInstanceSeq calls d = (List.replicate calls.length server.listening, d) := by
  induction calls with
  | nil => rfl
  | cons c cs ih =>
    obtain ⟨key, o⟩ := c
    simp [setSingleInstanceSeq, setSingleInstance_stored o key d server h, ih,
      List.replicate_succ]

theorem setSingleInstanceSeq_append (pre post : List (String × Outcome)) (d : DApplication) :
    setSingleInstanceSeq (pre ++ post) d
      = ((setSingleInstanceSeq pre d).1 ++ (setSingleInstanceSeq post (setSingleInstanceSeq pre d).2).1,
          (setSingleInstanceSeq post (setSingleInstanceSeq pre d).2).2) := by
  induction pre generalizing d with
  | nil => simp [setSingleInstanceSeq]
  | cons c cs ih =>
    obtain ⟨key, o⟩ := c
    simp [setSingleInstanceSeq, ih]

/-- What one call adds to the calls into the socket layer: nothing, or the
probe, or the probe followed by one creation and one `listen`, in which case a
server is stored afterwards. -/
theorem setSingleInstance_calls (o : Outcome) (key : String) (d : DApplication) :
    ∃ made, (DApplicationPrivate.setSingleInstance o key d).2.socketCalls = d.socketCalls ++ made
      ∧ ((made.count SocketCall.newLocalServer = 0 ∧ made.countP SocketCall.isListen = 0)
        ∨ (made.count SocketCall.newLocalServer = 1 ∧ made.countP SocketCall.isListen = 1
          ∧ d.m_localServer = none
          ∧ ∃ server, (DApplicationPrivate.setSingleInstance o key d).2.m_localServer
              = some server)) := by
  cases hs : d.m_localServer with
  | some server =>
    exact ⟨[], by simp [setSingleInstance_stored o key d server hs], Or.inl ⟨rfl, rfl⟩⟩
  | none =>
    cases hc : o.connected with
    | true =>
      refine ⟨[SocketCall.connectToServer key, SocketCall.waitForConnected 1000,
        SocketCall.deleteLater], ?_, Or.inl ⟨by simp, by simp [SocketCall.isListen]⟩⟩
      simp [DApplicationPrivate.setSingleInstance, hs, hc, DApplication.call]
    | false =>
      refine ⟨[SocketCall.connectToServer key, SocketCall.waitForConnected 1000,
        SocketCall.deleteLater, SocketCall.newLocalServer, SocketCall.removeServer key,
        SocketCall.connectNewConnection, SocketCall.listen key], ?_,
        Or.inr ⟨by simp, by simp [SocketCall.isListen], rfl, ?_⟩⟩
      · simp [DApplicationPrivate.setSingleInstance, hs, hc, DApplication.call]
      · simp [DApplicationPrivate.setSingleInstance, hs, hc]

theorem setSingleInstanceSeq_calls (calls : List (String × Outcome)) (d : DApplication) :
    ∃ made, (setSingleInstanceSeq calls d).2.socketCalls = d.socketCalls ++ made
      ∧ made.count SocketCall.newLocalServer ≤ 1 ∧ made.countP SocketCall.isListen ≤ 1 := by
  induction calls generalizing d with
  | nil => exact ⟨[], by simp [setSingleInstanceSeq], by simp, by simp⟩
  | cons c cs ih =>
    obtain ⟨key, o⟩ := c
    obtain ⟨made1, h1, hcase⟩ := setSingleInstance_calls o key d
    rcases hcase with ⟨hn, hl⟩ | ⟨hn, hl, _, server, hsrv⟩
    · obtain ⟨made2, h2, hn2, hl2⟩ := ih (DApplicationPrivate.setSingleInstance o key d).2
      refine ⟨made1 ++ made2, ?_, ?_, ?_⟩
      · simp [setSingleInstanceSeq, h2, h1]
      · simp [List.count_append, hn, hn2]
      · simp [List.countP_append, hl, hl2]
    · refine ⟨made1, ?_, by omega, by omega⟩
      simp [setSingleInstanceSeq, setSingleInstanceSeq_stored cs _ server hsrv, h1]

/-- C6: over any sequence of `setSingleInstance` calls on one object, with any
keys and any outcomes of the probes and of `listen`, the calls made into the
socket layer contain at most one creation of a server and at most one `listen`;
and from the moment a server is stored (listening or not), every later call
returns the listening state of that server and changes nothing. -/
theorem setSingleInstanceSeq_once (calls : List (String × Outcome)) (d : DApplication) :
    (∃ made, (setSingleInstanceSeq calls d).2.socketCalls = d.socketCalls ++ made
        ∧ made.count SocketCall.newLocalServer ≤ 1 ∧ made.countP SocketCall.isListen ≤ 1)
      ∧ ∀ (pre post : List (String × Outcome)) (server : QLocalServer), calls = pre ++ post →
          (setSingleInstanceSeq pre d).2.m_localServer = some server →
          setSingleInstanceSeq post (setSingleInstanceSeq pre d).2
            = (List.replicate post.length server.listening, (setSingleInstanceSeq pre d).2) :=
  ⟨setSingleInstanceSeq_calls calls d, fun _ post server _ h =>
    setSingleInstanceSeq_stored post _ server h⟩

/-- A run over five calls: the probe succeeds twice, then `listen` fails, and
the two later calls return false without touching the socket layer. -/
theorem setSingleInstanceSeq_run :
    setSingleInstanceSeq [("a", ⟨true, true⟩), ("a", ⟨true, true⟩), ("a", ⟨false, false⟩),
        ("b", ⟨false, true⟩), ("a", ⟨false, true⟩)] DApplication.new
      = ([false, false, false, false, false], { DApplication.new with
          m_localServer := some ⟨false, ""⟩
          socketCalls := [SocketCall.connectToServer "a", SocketCall.waitForConnected 1000,
            SocketCall.deleteLater, SocketCall.connectToServer "a",
            SocketCall.waitForConnected 1000, SocketCall.deleteLater,
            SocketCall.connectToServer "a", SocketCall.waitForConnected 1000,
            SocketCall.deleteLater, SocketCall.newLocalServer, SocketCall.removeServer "a",
            SocketCall.connectNewConnection, SocketCall.listen "a"] }) := by
  decide

/-! ## Platform plugin override -/

/-- C8: with no global application object, `loadDXcbPlugin` returns false and
leaves the process environment untouched (no `qputenv` call) when `dxcb` is not
among the keys of the platform factory; when it is, there is exactly one
`qputenv` call, of `QT_QPA_PLATFORM` to `dxcb`, and the result is whether that
write succeeded. -/
theorem loadDXcbPlugin_spec (debugBuild : Bool) (keys : List String) (putenvOk : Bool)
    (p : ProcessEnv) :
    DApplication.loadDXcbPlugin debugBuild false keys putenvOk p
      = if "dxcb" ∈ keys then
          some (putenvOk, ProcessEnv.mk
            (if putenvOk then
              ("QT_QPA_PLATFORM", "dxcb") :: p.vars.filter (fun v => v.1 ≠ "QT_QPA_PLATFORM")
            else p.vars)
            (p.qputenvCalls ++ [("QT_QPA_PLATFORM", "dxcb")]))
        else some (false, p) := by
  by_cases hk : "dxcb" ∈ keys <;> cases putenvOk <;>
    simp [DApplication.loadDXcbPlugin, DXCB_PLUGIN_KEY, qputenv, hk]

/-! ## Startup-notification cursor feedback -/

theorem deliverAll_snoc (l : List StartupSignal) (s : StartupSignal) (d : DApplication) :
    DApplicationPrivate.deliverAll (l ++ [s]) d
      = DApplicationPrivate.deliver (DApplicationPrivate.deliverAll l d) s := by
  simp [DApplicationPrivate.deliverAll, List.foldl_append]

theorem mem_deliver (d : DApplication) (s : StartupSignal) (x : String) :
    x ∈ (DApplicationPrivate.deliver d s).m_monitoredStartupApps
      ↔ (s = StartupSignal.appStartup x)
        ∨ (s.id ≠ x ∧ x ∈ d.m_monitoredStartupApps) := by
  cases s with
  | appStartup id =>
    simp only [DApplicationPrivate.deliver, DApplicationPrivate.onAppStartup,
      DApplication.setOverrideCursor, StartupSignal.id, List.mem_append, List.mem_singleton,
      StartupSignal.appStartup.injEq]
    constructor
    · intro h
      rcases h with h | h
      · by_cases e : id = x
        · exact Or.inl e
        · exact Or.inr ⟨e, h⟩
      · exact Or.inl h.symm
    · intro h
      rcases h with h | h
      · exact Or.inr h.symm
      · exact Or.inl h.2
  | appStartupCompleted id =>
    have hm : x ∈ (DApplicationPrivate.deliver d
        (StartupSignal.appStartupCompleted id)).m_monitoredStartupApps
        ↔ x ∈ d.m_monitoredStartupApps.filter (fun y => y ≠ id) := by
      simp only [DApplicationPrivate.deliver, DApplicationPrivate.onAppStartupCompleted]
      split <;> simp [DApplication.setOverrideCursor]
    rw [hm]
    simp only [List.mem_filter, StartupSignal.id, decide_eq_true_eq]
    constructor
    · intro h
      exact Or.inr ⟨fun e => h.2 e.symm, h.1⟩
    · intro h
      rcases h with h | h
      · cases h
      · exact ⟨h.2, fun e => h.1 e.symm⟩

theorem mostRecent_snoc (l : List StartupSignal) (s : StartupSignal) (x : String) :
    mostRecent (l ++ [s]) x = if s.id = x then some s else mostRecent l x := by
  unfold mostRecent
  by_cases h : s.id = x
  · simp [List.filter_append, h, List.getLast?_append]
  · simp [List.filter_append, h]

/-- Which identifiers are pending after a sequence of signals, from any starting
list: those whose most recent signal is a begin, and those without a signal that
were pending at the start. -/
theorem mem_deliverAll (l : List StartupSignal) (d : DApplication) (x : String) :
    x ∈ (DApplicationPrivate.deliverAll l d).m_monitoredStartupApps
      ↔ mostRecent l x = some (StartupSignal.appStartup x)
        ∨ (mostRecent l x = none ∧ x ∈ d.m_monitoredStartupApps) := by
  induction l using List.reverseRecOn with
  | nil => simp [DApplicationPrivate.deliverAll, mostRecent]
  | append_singleton l s ih =>
    rw [deliverAll_snoc, mem_deliver, mostRecent_snoc, ih]
    by_cases h : s.id = x
    · simp only [h, if_true, Option.some.injEq]
      constructor
      · intro hh
        rcases hh with hh | hh
        · exact Or.inl hh
        · exact absurd rfl hh.1
      · intro hh
        rcases hh with hh | hh
        · exact Or.inl hh
        · cases hh.1
    · simp only [h, if_false]
      constructor
      · intro hh
        rcases hh with hh | hh
        · subst hh
          exact absurd rfl h
        · exact hh.2
      · intro hh
        exact Or.inr ⟨h, hh⟩

theorem deliver_cursor (d : DApplication) (s : StartupSignal) (h : busyWhilePending d) :
    (DApplicationPrivate.deliver d s).overrideCursor
      = some (if (DApplicationPrivate.deliver d s).m_monitoredStartupApps = [] then
          CursorShape.ArrowCursor else CursorShape.WaitCursor) := by
  cases s with
  | appStartup id =>
    simp [DApplicationPrivate.deliver, DApplicationPrivate.onAppStartup,
      DApplication.setOverrideCursor, DApplication.overrideCursor]
  | appStartupCompleted id =>
    by_cases he : d.m_monitoredStartupApps.filter (fun x => x ≠ id) = []
    · have hemp : (d.m_monitoredStartupApps.filter (fun x => x ≠ id)).isEmpty = true := by
        rw [he]
        rfl
      simp only [DApplicationPrivate.deliver, DApplicationPrivate.onAppStartupCompleted, hemp]
      have he2 : ∀ a ∈ d.m_monitoredStartupApps, a = id := by simpa using he
      simp [DApplication.setOverrideCursor, DApplication.overrideCursor]
      rw [if_pos he2]
    · have hemp : (d.m_monitoredStartupApps.filter (fun x => x ≠ id)).isEmpty = false := by
        cases hf : d.m_monitoredStartupApps.filter (fun x => x ≠ id) with
        | nil => exact absurd hf he
        | cons a as => rfl
      have hne : d.m_monitoredStartupApps ≠ [] := by
        intro e
        apply he
        simp [e]
      have hw := h hne
      simp only [DApplication.overrideCursor] at hw
      simp only [DApplicationPrivate.deliver, DApplicationPrivate.onAppStartupCompleted, hemp]
      have he2 : ¬ ∀ a ∈ d.m_monitoredStartupApps, a = id := by simpa using he
      simp [he2, hw, DApplication.overrideCursor]

theorem busyWhilePending_deliver (d : DApplication) (s : StartupSignal)
    (h : busyWhilePending d) : busyWhilePending (DApplicationPrivate.deliver d s) := by
  intro hne
  rw [deliver_cursor d s h]
  simp [hne]

theorem busyWhilePending_deliverAll (l : List StartupSignal) (d : DApplication)
    (h : busyWhilePending d) : busyWhilePending (DApplicationPrivate.deliverAll l d) := by
  induction l using List.reverseRecOn with
  | nil => simpa [DApplicationPrivate.deliverAll] using h
  | append_singleton l s ih =>
    rw [deliverAll_snoc]
    exact busyWhilePending_deliver _ s ih

/-- C7: after a non-empty sequence of startup signals, delivered to an object
whose pending list was empty, an identifier is pending exactly when its most
recent signal is a begin, and the active override cursor is the arrow cursor
when nothing is pending and the busy cursor otherwise. -/
theorem deliverAll_policy (signals : List StartupSignal) (d : DApplication)
    (hne : signals ≠ []) (h0 : d.m_monitoredStartupApps = []) :
    (∀ id, id ∈ (DApplicationPrivate.deliverAll signals d).m_monitoredStartupApps
        ↔ mostRecent signals id = some (StartupSignal.appStartup id))
      ∧ (DApplicationPrivate.deliverAll signals d).overrideCursor
        = some (if (DApplicationPrivate.deliverAll signals d).m_monitoredStartupApps = [] then
            CursorShape.ArrowCursor else CursorShape.WaitCursor) := by
  constructor
  · intro id
    rw [mem_deliverAll]
    simp [h0]
  · obtain ⟨l, s, rfl⟩ : ∃ l s, signals = l ++ [s] := by
      rcases List.eq_nil_or_concat signals with h | ⟨l, s, h⟩
      · exact absurd h hne
      · exact ⟨l, s, by simpa using h⟩
    rw [deliverAll_snoc]
    apply deliver_cursor
    apply busyWhilePending_deliverAll
    intro hp
    exact absurd h0 hp

theorem deliverAll_policy_witness :
    (∀ id, id ∈ (DApplicationPrivate.deliverAll
          [StartupSignal.appStartup "a", StartupSignal.appStartup "a",
            StartupSignal.appStartupCompleted "b", StartupSignal.appStartup "b",
            StartupSignal.appStartupCompleted "a"] DApplication.new).m_monitoredStartupApps
        ↔ mostRecent [StartupSignal.appStartup "a", StartupSignal.appStartup "a",
            StartupSignal.appStartupCompleted "b", StartupSignal.appStartup "b",
            StartupSignal.appStartupCompleted "a"] id = some (StartupSignal.appStartup id))
      ∧ (DApplicationPrivate.deliverAll
          [StartupSignal.appStartup "a", StartupSignal.appStartup "a",
            StartupSignal.appStartupCompleted "b", StartupSignal.appStartup "b",
            StartupSignal.appStartupCompleted "a"] DApplication.new).overrideCursor
        = some (if (DApplicationPrivate.deliverAll
            [StartupSignal.appStartup "a", StartupSignal.appStartup "a",
              StartupSignal.appStartupCompleted "b", StartupSignal.appStartup "b",
              StartupSignal.appStartupCompleted "a"] DApplication.new).m_monitoredStartupApps = []
          then CursorShape.ArrowCursor else CursorShape.WaitCursor) :=
  deliverAll_policy [StartupSignal.appStartup "a", StartupSignal.appStartup "a",
    StartupSignal.appStartupCompleted "b", StartupSignal.appStartup "b",
    StartupSignal.appStartupCompleted "a"] DApplication.new (by decide) rfl

/-- A run of five signals: `b` is pending at the end, the busy cursor is
active. -/
theorem deliverAll_run :
    DApplicationPrivate.deliverAll
        [StartupSignal.appStartup "a", StartupSignal.appStartup "a",
          StartupSignal.appStartupCompleted "b", StartupSignal.appStartup "b",
          StartupSignal.appStartupCompleted "a"] DApplication.new
      = { DApplication.new with
          m_monitoredStartupApps := ["b"]
          overrideCursors := [CursorShape.WaitCursor, CursorShape.WaitCursor,
            CursorShape.WaitCursor] } := by
  decide

end Dtk
